import Mathlib

/-!
Verification of the self-update subsystem of aqua-speed-tools (Go).

The definitions below are a shallow embedding of the Go source under
`internal/updater/` (updater.go, utils.go, errors.go, archive_reader.go,
github_client.go).  Strings are modelled through their character lists
(`String.data`); byte buffers are `List Nat` with each element < 256 by
construction; machine-word arithmetic in SHA-1 is `Nat` with explicit
`% 2^32`.  Fallible Go functions return `Except GoErr`.  Filesystem
effects are explicit state passing over an `FS` record; write failures
are driven by an oracle list of failing paths recorded in the state.
-/

deriving instance DecidableEq for Except

/-- Go `unicode.IsSpace` restricted to the characters that can occur in
the version record and checksum files (ASCII whitespace plus the two
Latin-1 spaces Go also recognises). -/
def goIsSpace (c : Char) : Bool :=
  c = ' ' || c = '\t' || c = '\n' || (c.toNat = 11) || (c.toNat = 12) ||
  c = '\r' || (c.toNat = 0x85) || (c.toNat = 0xA0)

/-- Go `strings.ToLower` on one character (ASCII range; all names in the
updater are ASCII). -/
def goToLower (c : Char) : Char :=
  if 'A' ≤ c ∧ c ≤ 'Z' then Char.ofNat (c.toNat + 32) else c

/-- Go `strings.HasPrefix s pre` on character lists (first argument is
the scanned string, second the candidate leading part). -/
def goStartsWith : List Char → List Char → Bool
  | _, [] => true
  | [], _ :: _ => false
  | c :: cs, p :: ps => c = p && goStartsWith cs ps

/-- Go `strings.HasSuffix s suf` on character lists. -/
def goEndsWith (s suf : List Char) : Bool :=
  goStartsWith s.reverse suf.reverse

/-- Go `strings.TrimPrefix s pre`: drop the leading part when present,
otherwise return the string unchanged. -/
def goTrimLeading (s pre : List Char) : List Char :=
  if goStartsWith s pre then s.drop pre.length else s

/-- Go `strings.TrimSuffix s suf`. -/
def goTrimSuffix (s suf : List Char) : List Char :=
  if goEndsWith s suf then s.take (s.length - suf.length) else s

/-- Go `strings.TrimSpace` (trim leading and trailing whitespace). -/
def goTrimSpace (s : List Char) : List Char :=
  ((s.dropWhile goIsSpace).reverse.dropWhile goIsSpace).reverse

/-- Accumulator worker for Go `strings.Fields`: `acc` holds the current
word reversed. -/
def goFieldsAux : List Char → List Char → List (List Char)
  | [], acc => if acc = [] then [] else [acc.reverse]
  | c :: cs, acc =>
    if goIsSpace c then
      if acc = [] then goFieldsAux cs [] else acc.reverse :: goFieldsAux cs []
    else goFieldsAux cs (c :: acc)

/-- Go `strings.Fields`: split around maximal runs of whitespace. -/
def goFields (s : List Char) : List (List Char) :=
  goFieldsAux s []

/-- Split at the first occurrence of `sep`, returning the parts before
and after it (Go `strings.Index` + slicing); `none` when absent. -/
def breakFirst (sep : Char) : List Char → Option (List Char × List Char)
  | [] => none
  | c :: cs =>
    if c = sep then some ([], cs)
    else match breakFirst sep cs with
      | none => none
      | some (l, r) => some (c :: l, r)

/-- Accumulator worker for Go `strings.Split` with a one-character
separator; `acc` holds the current part reversed. -/
def goSplitAux (sep : Char) : List Char → List Char → List (List Char)
  | [], acc => [acc.reverse]
  | c :: cs, acc =>
    if c = sep then acc.reverse :: goSplitAux sep cs []
    else goSplitAux sep cs (c :: acc)

/-- Go `strings.Split s sep` for a one-character separator: always at
least one part. -/
def goSplit (sep : Char) (s : List Char) : List (List Char) :=
  goSplitAux sep s []

/-! ## SHA-1 (crypto/sha1), the checksum algorithm of `CalculateChecksum` -/

/-- 32-bit left rotation on `Nat` words (< 2^32). -/
def rotl32 (k x : Nat) : Nat :=
  ((x <<< k) ||| (x >>> (32 - k))) % 4294967296

/-- Bitwise complement on a 32-bit word. -/
def bnot32 (x : Nat) : Nat :=
  x ^^^ 4294967295

/-- Group bytes into big-endian 32-bit words. -/
def bytesToWords : List Nat → List Nat
  | b0 :: b1 :: b2 :: b3 :: rest =>
    (b0 * 16777216 + b1 * 65536 + b2 * 256 + b3) :: bytesToWords rest
  | _ => []

/-- Big-endian byte expansion of a Nat into `k` bytes. -/
def natToBytesBE (k n : Nat) : List Nat :=
  match k with
  | 0 => []
  | k + 1 => natToBytesBE k (n / 256) ++ [n % 256]

/-- SHA-1 message padding: append 0x80, zero bytes and the 64-bit
big-endian bit length so the total is a multiple of 64 bytes. -/
def sha1Pad (msg : List Nat) : List Nat :=
  let z := (119 - (msg.length % 64)) % 64
  msg ++ 128 :: List.replicate z 0 ++ natToBytesBE 8 (msg.length * 8)

/-- Extend the 16 schedule words of a block by `k` more words. -/
def sha1Extend : Nat → List Nat → List Nat
  | 0, w => w
  | k + 1, w =>
    let n := w.length
    let x := (w.getD (n - 3) 0) ^^^ (w.getD (n - 8) 0) ^^^
             (w.getD (n - 14) 0) ^^^ (w.getD (n - 16) 0)
    sha1Extend k (w ++ [rotl32 1 x])

/-- One SHA-1 round: update the five-word state with word `wi` of
round `i`. -/
def sha1Round (i wi : Nat) (st : Nat × Nat × Nat × Nat × Nat) :
    Nat × Nat × Nat × Nat × Nat :=
  let (a, b, c, d, e) := st
  let f :=
    if i < 20 then (b &&& c) ||| ((bnot32 b) &&& d)
    else if i < 40 then b ^^^ c ^^^ d
    else if i < 60 then (b &&& c) ||| (b &&& d) ||| (c &&& d)
    else b ^^^ c ^^^ d
  let k :=
    if i < 20 then 1518500249
    else if i < 40 then 1859775393
    else if i < 60 then 2400959708
    else 3395469782
  let temp := (rotl32 5 a + f + e + k + wi) % 4294967296
  (temp, a, rotl32 30 b, c, d)

/-- Run the 80 rounds over the schedule words, threading the round
index. -/
def sha1Rounds : Nat → List Nat → Nat × Nat × Nat × Nat × Nat →
    Nat × Nat × Nat × Nat × Nat
  | _, [], st => st
  | i, wi :: ws, st => sha1Rounds (i + 1) ws (sha1Round i wi st)

/-- Process one 64-byte block, updating the running hash state. -/
def sha1Block (h : Nat × Nat × Nat × Nat × Nat) (block : List Nat) :
    Nat × Nat × Nat × Nat × Nat :=
  let w := sha1Extend 64 (bytesToWords block)
  let (h0, h1, h2, h3, h4) := h
  let (a, b, c, d, e) := sha1Rounds 0 w (h0, h1, h2, h3, h4)
  ((h0 + a) % 4294967296, (h1 + b) % 4294967296, (h2 + c) % 4294967296,
   (h3 + d) % 4294967296, (h4 + e) % 4294967296)

/-- Fuel-driven worker splitting a byte list into 64-byte blocks; the
fuel is an upper bound on the number of blocks, so recursion stays
structural and kernel-reducible. -/
def chunks64Aux : Nat → List Nat → List (List Nat)
  | 0, _ => []
  | _, [] => []
  | fuel + 1, l => l.take 64 :: chunks64Aux fuel (l.drop 64)

/-- Split a padded message into 64-byte blocks. -/
def chunks64 (l : List Nat) : List (List Nat) :=
  chunks64Aux l.length l

/-- The five 32-bit words of the SHA-1 digest of a byte buffer. -/
def sha1Digest (msg : List Nat) : Nat × Nat × Nat × Nat × Nat :=
  (chunks64 (sha1Pad msg)).foldl sha1Block
    (1732584193, 4023233417, 2562383102, 271733878, 3285377520)

/-- One lowercase hex digit. -/
def hexDigit (n : Nat) : Char :=
  if n < 10 then Char.ofNat (48 + n) else Char.ofNat (87 + n)

/-- Two lowercase hex digits of one byte (encoding/hex). -/
def byteHex (b : Nat) : List Char :=
  [hexDigit (b / 16), hexDigit (b % 16)]

/-- The four big-endian bytes of a 32-bit word. -/
def wordBytes (w : Nat) : List Nat :=
  [w / 16777216 % 256, w / 65536 % 256, w / 256 % 256, w % 256]

/-- `CalculateChecksum` (utils.go): lowercase SHA-1 hex digest of a byte
buffer, as a character list.  The Go version can only fail if the hash
writer fails, which never happens for an in-memory write. -/
def sha1HexChars (msg : List Nat) : List Char :=
  let (h0, h1, h2, h3, h4) := sha1Digest msg
  ((wordBytes h0 ++ wordBytes h1 ++ wordBytes h2 ++ wordBytes h3 ++
    wordBytes h4).map byteHex).flatten


/-! ## Go error values

`UpdateError` (errors.go) wraps a cause with an operation label;
`fmt.Errorf` with `%w` also wraps while adding text.  Base errors carry
their message. -/

/-- Structural model of Go error values as produced by the updater:
`base` for leaf errors, `wrap` for `WrapError`/`UpdateError`, `fmtw`
for `fmt.Errorf` wrapping with extra formatted text. -/
inductive GoErr where
  | base : String → GoErr
  | wrap : String → GoErr → GoErr
  | fmtw : String → GoErr → GoErr
deriving DecidableEq, Repr

/-- `ErrNoExecutableFound` (errors.go). -/
def ErrNoExecutableFound : GoErr :=
  .wrap "archive scan" (.base "no executable found in archive")

/-- `ErrChecksumMismatch` (errors.go). -/
def ErrChecksumMismatch : GoErr :=
  .wrap "checksum" (.base "file checksum mismatch")

/-- The checksum-mismatch error raised on verification failure:
`fmt.Errorf("%w: expected=%s, actual=%s", ErrChecksumMismatch, e, a)`
wrapped with the operation label `"checksum verification"`. -/
def checksumMismatchErr (expected actual : List Char) : GoErr :=
  .wrap "checksum verification"
    (.fmtw (String.mk ("expected=".data ++ expected ++ ", actual=".data ++ actual))
      ErrChecksumMismatch)

/-! ## Version model (utils `ParseVersion`, blang/semver v4) -/

/-- One dot-separated pre-release field: numeric fields are kept as
numbers, alphanumeric ones as text (semver `PRVersion`). -/
inductive PRV where
  | num : Nat → PRV
  | str : String → PRV
deriving DecidableEq, Repr

/-- A parsed semantic version (blang/semver `Version`): numeric triple
plus pre-release and build metadata. -/
structure Semver where
  major : Nat
  minor : Nat
  patch : Nat
  pre : List PRV
  build : List String
deriving DecidableEq, Repr

/-- ASCII decimal digit test. -/
def isDigitCh (c : Char) : Bool :=
  '0' ≤ c && c ≤ '9'

/-- semver's alphanumeric character set (letters, digits and hyphen). -/
def isAlnumHyphen (c : Char) : Bool :=
  isDigitCh c || ('a' ≤ c && c ≤ 'z') || ('A' ≤ c && c ≤ 'Z') || c = '-'

/-- Leading-zero test used by blang/semver on numeric fields. -/
def hasLeadingZeroes (l : List Char) : Bool :=
  match l with
  | '0' :: _ :: _ => true
  | _ => false

/-- Decimal value of a digit string (strconv.ParseUint; overflow beyond
64 bits is not modelled, versions never approach it). -/
def digitsToNat (l : List Char) : Nat :=
  l.foldl (fun acc c => acc * 10 + (c.toNat - 48)) 0

/-- Parse one dot-separated numeric version field (major/minor/patch
core): all digits, no leading zeroes, nonempty. -/
def parseNumField (label : String) (l : List Char) : Except GoErr Nat :=
  if !(l.all isDigitCh) then
    .error (.base ("Invalid character(s) found in " ++ label ++ " number"))
  else if hasLeadingZeroes l then
    .error (.base (label ++ " number must not contain leading zeroes"))
  else if l = [] then
    .error (.base "strconv.ParseUint: parsing empty string")
  else .ok (digitsToNat l)

/-- blang/semver `NewPRVersion`: classify one pre-release field. -/
def parsePRV (l : List Char) : Except GoErr PRV :=
  if l = [] then .error (.base "Prerelease is empty")
  else if l.all isDigitCh then
    if hasLeadingZeroes l then
      .error (.base "Numeric PreRelease version must not contain leading zeroes")
    else .ok (.num (digitsToNat l))
  else if l.all isAlnumHyphen then .ok (.str (String.mk l))
  else .error (.base "Invalid character(s) found in prerelease")

/-- blang/semver `NewBuildVersion`: validate one build metadata field. -/
def parseBuildField (l : List Char) : Except GoErr String :=
  if l = [] then .error (.base "Buildversion is empty")
  else if l.all isAlnumHyphen then .ok (String.mk l)
  else .error (.base "Invalid character(s) found in build meta data")

/-- blang/semver v4 `Parse` on a character list: split into
major.minor.rest, carve build metadata after `+` and pre-release after
`-` out of the rest, and validate every field. -/
def parseSemver (l : List Char) : Except GoErr Semver := do
  if l = [] then throw (.base "Version string empty")
  match breakFirst '.' l with
  | none => throw (.base "No Major.Minor.Patch elements found")
  | some (majorStr, r0) =>
    match breakFirst '.' r0 with
    | none => throw (.base "No Major.Minor.Patch elements found")
    | some (minorStr, rest) =>
      let major ← parseNumField "Major" majorStr
      let minor ← parseNumField "Minor" minorStr
      let (beforePlus, buildTexts) :=
        match breakFirst '+' rest with
        | none => (rest, [])
        | some (a, b) => (a, goSplit '.' b)
      let (patchStr, preTexts) :=
        match breakFirst '-' beforePlus with
        | none => (beforePlus, [])
        | some (a, b) => (a, goSplit '.' b)
      let patch ← parseNumField "Patch" patchStr
      let pre ← preTexts.mapM parsePRV
      let build ← buildTexts.mapM parseBuildField
      return { major := major, minor := minor, patch := patch,
               pre := pre, build := build }

/-- The regex gate `^\d+\.\d+\.\d+` of `ParseVersion`: digits, dot,
digits, dot, digits at the start of the string. -/
def dddStart (l : List Char) : Bool :=
  let d1 := l.takeWhile isDigitCh
  let r1 := l.dropWhile isDigitCh
  if d1 = [] then false
  else match r1 with
    | '.' :: r2 =>
      let d2 := r2.takeWhile isDigitCh
      let r3 := r2.dropWhile isDigitCh
      if d2 = [] then false
      else match r3 with
        | '.' :: r4 => !(r4.takeWhile isDigitCh = [])
        | _ => false
    | _ => false

/-- `ParseVersion` (archive_reader.go / utils of the updater): strip one
leading `v`, require a `\d+\.\d+\.\d+` start, then defer to
blang/semver `Parse`. -/
def ParseVersion (s : String) : Except GoErr Semver :=
  let t := goTrimLeading s.data ['v']
  if dddStart t then parseSemver t
  else .error (.base ("invalid version format: " ++ String.mk t))

/-- Three-way comparison of naturals as the `Int` sign blang/semver
returns. -/
def cmpNat (a b : Nat) : Int :=
  if a < b then -1 else if b < a then 1 else 0

/-- Lexicographic Go string comparison (on ASCII it agrees with Go's
byte-wise order). -/
def cmpChars : List Char → List Char → Int
  | [], [] => 0
  | [], _ :: _ => -1
  | _ :: _, [] => 1
  | a :: as, b :: bs =>
    if a.toNat < b.toNat then -1
    else if b.toNat < a.toNat then 1
    else cmpChars as bs

/-- blang/semver `PRVersion.Compare`: numeric fields sort below
alphanumeric ones. -/
def cmpPRV : PRV → PRV → Int
  | .num a, .num b => cmpNat a b
  | .num _, .str _ => -1
  | .str _, .num _ => 1
  | .str a, .str b => cmpChars a.data b.data

/-- Element-wise pre-release list comparison with the length tiebreak of
blang/semver (shorter list is lower when a prefix matches). -/
def cmpPreLists : List PRV → List PRV → Int
  | [], [] => 0
  | [], _ :: _ => -1
  | _ :: _, [] => 1
  | x :: xs, y :: ys =>
    let c := cmpPRV x y
    if c = 0 then cmpPreLists xs ys else c

/-- blang/semver `Version.Compare`: numeric triple, then the
pre-release rule (a release sorts above any pre-release); build
metadata is ignored. -/
def compareV (a b : Semver) : Int :=
  if a.major ≠ b.major then cmpNat a.major b.major
  else if a.minor ≠ b.minor then cmpNat a.minor b.minor
  else if a.patch ≠ b.patch then cmpNat a.patch b.patch
  else if a.pre = [] ∧ b.pre = [] then 0
  else if a.pre = [] then 1
  else if b.pre = [] then -1
  else cmpPreLists a.pre b.pre

/-- The comparison step of `NeedsUpdate` (updater.go): report an update
exactly when the latest version is not `LTE` the current one. -/
def needsUpdateV (current latest : Semver) : Bool :=
  if compareV latest current ≤ 0 then false else true


/-! ## Naming helpers (utils.go) and binary matching (updater.go) -/

/-- `NormalizeArch` (utils.go): `amd64` becomes `x64`, anything else is
unchanged. -/
def normalizeArch (arch : String) : String :=
  if arch = "amd64" then "x64" else arch

/-- `FormatBinaryName` (utils.go): `prefix-os-arch`, with `.exe` added on
Windows. -/
def formatBinaryName (pre osName arch : String) : String :=
  let name := pre ++ "-" ++ osName ++ "-" ++ arch
  if osName = "windows" then name ++ ".exe" else name

/-- `FormatCompressedName` (utils.go): `prefix-os-arch_vVERSION` with a
`.zip` extension on Windows/darwin and `.tar.xz` elsewhere; a leading
`v` of the version is stripped and `amd64` is normalized again. -/
def formatCompressedName (pre osName arch version : String) : String :=
  let v := String.mk (goTrimLeading version.data ['v'])
  let a := normalizeArch arch
  let name := pre ++ "-" ++ osName ++ "-" ++ a ++ "_v" ++ v
  if osName = "windows" ∨ osName = "darwin" then name ++ ".zip"
  else name ++ ".tar.xz"

/-- `filepath.Base` (slash-separated names as they occur inside
archives): empty path gives `.`, trailing slashes are dropped, an
all-slash path gives `/`, otherwise the last component. -/
def filepathBase (s : List Char) : List Char :=
  if s = [] then ['.']
  else
    let r := s.reverse.dropWhile (fun c => c = '/')
    if r = [] then ['/'] else (r.takeWhile (fun c => c ≠ '/')).reverse

/-- `filepath.Ext` on a base name (no separators): the suffix starting
at the last dot, empty when there is no dot. -/
def pathExt (s : List Char) : List Char :=
  let tailRev := s.reverse.takeWhile (fun c => c ≠ '.')
  if tailRev.length = s.length then [] else '.' :: tailRev.reverse

/-- `isTargetBinary` (updater.go, the variant with the dash-joined
prefix heuristic): on Windows the lowercased base name must end in
`.exe`; then the lowercased base name with its extension stripped must
start with the target name joined from all dash-separated segments but
the last. -/
def isTargetBinary (isWindows : Bool) (binaryName filename : String) : Bool :=
  let baseName := filepathBase filename.data
  if isWindows && !(goEndsWith (baseName.map goToLower) ".exe".data) then
    false
  else
    let fileNameWithoutExt :=
      goTrimSuffix (baseName.map goToLower) (pathExt baseName)
    let targetNameWithoutExt :=
      goTrimSuffix (binaryName.data.map goToLower) (pathExt binaryName.data)
    let baseParts := goSplit '-' targetNameWithoutExt
    match baseParts with
    | [] => false
    | _ :: _ =>
      goStartsWith fileNameWithoutExt
        (List.intercalate ['-'] baseParts.dropLast)

/-- `readChecksumFromContent` (updater.go): trim the checksum file text,
split on whitespace and keep the first token (falling back to the
trimmed text when there is none). -/
def readChecksumFromContent (content : List Char) : List Char :=
  let t := goTrimSpace content
  match goFields t with
  | [] => t
  | p :: _ => p

/-- One archive entry as yielded by the archive reader: entry name and
fully read byte content. -/
structure Entry where
  name : String
  data : List Nat
deriving DecidableEq, Repr

/-- Bytes viewed as text, Go `string(b)` (byte-transparent for the
ASCII checksum files the updater reads). -/
def bytesToChars (l : List Nat) : List Char :=
  l.map Char.ofNat

/-- The scanning state of `readArchiveContents`: extracted checksum,
binary bytes, and the two found flags. -/
structure ScanSt where
  checksum : List Char
  binData : List Nat
  foundC : Bool
  foundB : Bool
deriving DecidableEq, Repr

/-- Effect of one archive entry on the scan state (the switch inside
the loop of `readArchiveContents`): a name ending in `checksum.txt` is
the checksum file; otherwise a name matching `isTargetBinary` is the
binary. -/
def racStep (isWindows : Bool) (binaryName : String) (st : ScanSt)
    (e : Entry) : ScanSt :=
  if goEndsWith e.name.data "checksum.txt".data then
    { st with checksum := readChecksumFromContent (bytesToChars e.data),
              foundC := true }
  else if isTargetBinary isWindows binaryName e.name then
    { st with binData := e.data, foundB := true }
  else st

/-- The entry loop of `readArchiveContents`: process entries in order
and break as soon as both the binary and the checksum file have been
found. -/
def racLoop (isWindows : Bool) (binaryName : String) :
    List Entry → ScanSt → ScanSt
  | [], st => st
  | e :: rest, st =>
    let st' := racStep isWindows binaryName st e
    if st'.foundB && st'.foundC then st'
    else racLoop isWindows binaryName rest st'

/-- The empty initial scan state. -/
def scanInit : ScanSt :=
  { checksum := [], binData := [], foundC := false, foundB := false }

/-- `readArchiveContents` (updater.go) after a successful open of the
archive: scan the entries, then report a missing binary, a missing
checksum file, or a digest mismatch, in that order; otherwise return
the extracted checksum and binary bytes. -/
def readArchiveCore (isWindows : Bool) (binaryName : String)
    (entries : List Entry) : Except GoErr (List Char × List Nat) :=
  let st := racLoop isWindows binaryName entries scanInit
  if !st.foundB then .error ErrNoExecutableFound
  else if !st.foundC then
    .error (.wrap "read archive contents" (.base "checksum file not found"))
  else if sha1HexChars st.binData ≠ st.checksum then
    .error (checksumMismatchErr st.checksum (sha1HexChars st.binData))
  else .ok (st.checksum, st.binData)

/-- `readArchiveContents` including the archive-reader construction:
the entry stream is abstracted as an `Except` value produced by the
external zip/tar-xz readers (mid-stream read errors are folded into the
construction outcome). -/
def readArchiveContentsModel (isWindows : Bool) (binaryName : String)
    (entriesE : Except GoErr (List Entry)) :
    Except GoErr (List Char × List Nat) :=
  match entriesE with
  | .error e => .error (.wrap "create archive reader" e)
  | .ok entries => readArchiveCore isWindows binaryName entries

/-! ## Filesystem model and the install/orchestration flow -/

/-- File contents: raw bytes for binaries and downloaded archives, text
for the version record. -/
inductive FileData where
  | bin : List Nat → FileData
  | txt : List Char → FileData
deriving DecidableEq, Repr

/-- Filesystem state: created directories, files, and the failure
oracles (paths whose `os.WriteFile` fails, and whether `os.MkdirAll`
fails). -/
structure FS where
  dirs : List String
  files : List (String × FileData)
  failPaths : List String
  mkdirFail : Bool
deriving DecidableEq, Repr

/-- Content of a path, `none` when absent. -/
def fsGet (fs : FS) (p : String) : Option FileData :=
  (fs.files.find? (fun e => e.1 = p)).map (fun e => e.2)

/-- `os.WriteFile`: fails exactly on oracle paths, otherwise truncates
or creates the file with the given content. -/
def fsWrite (fs : FS) (p : String) (d : FileData) :
    FS × Except GoErr Unit :=
  if p ∈ fs.failPaths then
    (fs, .error (.base ("write " ++ p ++ " failed")))
  else
    ({ fs with files := fs.files.filter (fun e => e.1 ≠ p) ++ [(p, d)] },
     .ok ())

/-- `os.Remove` with its result discarded, as `verifyAndSaveBinary`
uses it. -/
def fsRemove (fs : FS) (p : String) : FS :=
  { fs with files := fs.files.filter (fun e => e.1 ≠ p) }

/-- `os.MkdirAll`: records the created directory (parent creation is
subsumed: tracking the leaf is enough for the frame claims). -/
def fsMkdirAll (fs : FS) (p : String) : FS × Except GoErr Unit :=
  if fs.mkdirFail then (fs, .error (.base ("mkdir " ++ p ++ " failed")))
  else ({ fs with dirs := if p ∈ fs.dirs then fs.dirs else fs.dirs ++ [p] },
        .ok ())

/-- `defer os.RemoveAll(tempDir)`: drop every file under the temporary
directory. -/
def fsRemoveAllUnder (fs : FS) (p : String) : FS :=
  { fs with files :=
      fs.files.filter (fun e => !goStartsWith e.1.data (p ++ "/").data) }

/-- The version record `"{version} {checksum}\n"` written by
`writeVersionInfo`. -/
def versionRecordText (version checksum : List Char) : List Char :=
  version ++ (' ' :: (checksum ++ ['\n']))

/-- `writeVersionInfo` (updater.go): write the version record to
`{installDir}/version.txt`. -/
def writeVersionInfo (fs : FS) (installDir : String)
    (version checksum : List Char) : FS × Except GoErr Unit :=
  fsWrite fs (installDir ++ "/version.txt")
    (.txt (versionRecordText version checksum))

/-- `verifyAndSaveBinary` (updater.go): recompute the digest and fail
with `ChecksumMismatch` before any write; then install the binary;
then write the version record, deleting the just-installed binary when
that write fails. -/
def verifyAndSaveBinary (fs : FS) (destPath : String) (installDir : String)
    (binaryData : List Nat) (latestVersion checksum : List Char) :
    FS × Except GoErr Unit :=
  let actualChecksum := sha1HexChars binaryData
  if actualChecksum ≠ checksum then
    (fs, .error (checksumMismatchErr checksum actualChecksum))
  else
    match fsWrite fs destPath (.bin binaryData) with
    | (fs1, .error e) => (fs1, .error (.wrap "save binary file" e))
    | (fs1, .ok _) =>
      match writeVersionInfo fs1 installDir latestVersion checksum with
      | (fs2, .error e) =>
        (fsRemove fs2 destPath, .error (.wrap "save version information" e))
      | (fs2, .ok _) => (fs2, .ok ())

/-- GitHub release asset (github_client.go). -/
structure GHAsset where
  name : String
  browserDownloadURL : String
deriving DecidableEq, Repr

/-- GitHub release API response (github_client.go). -/
structure GHRelease where
  tagName : String
  assets : List GHAsset
deriving DecidableEq, Repr

/-- Updater configuration: install layout and platform, with the
current version as parsed at construction.  The asset/binary prefix is
the literal `"aqua-speed"` of the source. -/
structure UpdCfg where
  installDir : String
  binaryName : String
  osName : String
  arch : String
  currentVersion : Semver
deriving DecidableEq, Repr

/-- External-world oracle for one `CheckAndUpdate` run: the release
feed response, the temporary-directory creation outcome, the archive
download outcome, and the entry stream of the downloaded archive. -/
structure UpdEnv where
  release : Except GoErr GHRelease
  tempDir : Except GoErr String
  download : Except GoErr (List Nat)
  entries : Except GoErr (List Entry)
deriving Repr

/-- `GetLatestVersion` (updater.go): fetch the release, parse its tag,
and select the asset whose name equals
`FormatCompressedName("aqua-speed", os, arch, tag)` exactly.  The
`url.Parse` validation never fails on a URL GitHub returns and is
elided. -/
def getLatestVersionModel (cfg : UpdCfg) (release : Except GoErr GHRelease) :
    Except GoErr (Semver × String × String) :=
  match release with
  | .error e => .error e
  | .ok rel =>
    match ParseVersion rel.tagName with
    | .error e => .error (.wrap "parse latest version" e)
    | .ok latestVersion =>
      let assetName :=
        formatCompressedName "aqua-speed" cfg.osName cfg.arch rel.tagName
      match rel.assets.find? (fun a => a.name = assetName) with
      | none =>
        .error (.base ("no matching asset found for " ++ assetName))
      | some a => .ok (latestVersion, a.browserDownloadURL, assetName)

/-- `NeedsUpdate` (updater.go): a `GetLatestVersion` failure is logged
and reported as `false` (no update), and otherwise an update is needed
exactly when the latest version is strictly above the current one. -/
def needsUpdateModel (cfg : UpdCfg) (release : Except GoErr GHRelease) :
    Option (Semver × String × String) :=
  match getLatestVersionModel cfg release with
  | .error _ => none
  | .ok (latestVersion, downloadURL, assetName) =>
    if compareV latestVersion cfg.currentVersion ≤ 0 then none
    else some (latestVersion, downloadURL, assetName)

/-- Decimal digits of a Nat. -/
def natDecimal (n : Nat) : List Char :=
  Nat.toDigits 10 n

/-- One pre-release field rendered back to text. -/
def prvChars : PRV → List Char
  | .num n => natDecimal n
  | .str s => s.data

/-- `semver.Version.String()`: `major.minor.patch`, `-pre` fields and
`+build` fields dot-joined. -/
def semverChars (v : Semver) : List Char :=
  natDecimal v.major ++ '.' :: natDecimal v.minor ++ '.' :: natDecimal v.patch
  ++ (if v.pre = [] then []
      else '-' :: List.intercalate ['.'] (v.pre.map prvChars))
  ++ (if v.build = [] then []
      else '+' :: List.intercalate ['.'] (v.build.map String.data))

/-- `performUpdate` (updater.go): download (progress copy wraps its own
errors with `download`), save the archive into the temporary
directory, read its contents, and verify-and-install. -/
def performUpdateModel (cfg : UpdCfg) (env : UpdEnv) (fs : FS)
    (tempDir : String) (latestVersion : Semver) (assetName : String) :
    FS × Except GoErr Unit :=
  let binDir := cfg.installDir ++ "/bin"
  let compressedPath := tempDir ++ "/" ++ assetName
  match env.download with
  | .error e => (fs, .error (.wrap "download file" (.wrap "download" e)))
  | .ok downloadedData =>
    match fsWrite fs compressedPath (.bin downloadedData) with
    | (fs1, .error e) => (fs1, .error (.wrap "save downloaded archive" e))
    | (fs1, .ok _) =>
      match readArchiveContentsModel (cfg.osName = "windows")
          cfg.binaryName env.entries with
      | .error e => (fs1, .error (.wrap "read archive contents" e))
      | .ok (checksum, binaryData) =>
        verifyAndSaveBinary fs1 (binDir ++ "/" ++ cfg.binaryName)
          cfg.installDir binaryData (semverChars latestVersion) checksum

/-- `CheckAndUpdate` (updater.go): ensure the install `bin` directory
exists, decide via `NeedsUpdate`, and when an update is needed create a
temporary directory, run `performUpdate`, and remove the temporary
directory again (the deferred `os.RemoveAll`). -/
def checkAndUpdateModel (cfg : UpdCfg) (env : UpdEnv) (fs : FS) :
    FS × Except GoErr Unit :=
  let binDir := cfg.installDir ++ "/bin"
  match fsMkdirAll fs binDir with
  | (fs', .error e) =>
    (fs', .error (.wrap "create installation directory" e))
  | (fs0, .ok _) =>
    match needsUpdateModel cfg env.release with
    | none => (fs0, .ok ())
    | some (latestVersion, _, assetName) =>
      match env.tempDir with
      | .error e => (fs0, .error (.wrap "create temporary directory" e))
      | .ok tmp =>
        match performUpdateModel cfg env fs0 tmp latestVersion assetName with
        | (fs1, r) => (fsRemoveAllUnder fs1 tmp, r)

/-- The version string `NewWithLocalVersion` (updater.go) extracts from
the version-record file content: the first whitespace-separated field,
the default when the content has none.  The chosen string is then
handed to `New`, which parses it with `ParseVersion`. -/
def localVersionChoice (content : List Char) (defaultVersion : String) :
    String :=
  match goFields content with
  | [] => defaultVersion
  | p :: _ => String.mk p

/-! ## Asset resolver of the prefix-matching `GetLatestVersion`
(the capability-complete updater variant) -/

/-- The expected asset name prefix of the prefix-matching
`GetLatestVersion`: `fmt.Sprintf("aqua-speed-%s-%s", runtime.GOOS,
arch)` with `arch := NormalizeArch(runtime.GOARCH)`. -/
def expectedAssetStem (osName arch : String) : String :=
  "aqua-speed-" ++ osName ++ "-" ++ normalizeArch arch

/-- The asset loop of the prefix-matching `GetLatestVersion`: walk the
release assets in order, `continue` on any asset literally named
`checksums.txt`, and `break` at the first asset whose name starts with
the expected prefix, recording its download URL and name; the zero
values `("", "")` are left when no asset matches. -/
def resolveAssetLoop (assets : List GHAsset) (expectedStem : String) :
    String × String :=
  match assets with
  | [] => ("", "")
  | a :: rest =>
    if a.name = "checksums.txt" then resolveAssetLoop rest expectedStem
    else if goStartsWith a.name.data expectedStem.data then
      (a.browserDownloadURL, a.name)
    else resolveAssetLoop rest expectedStem

/-- The asset-selection step of the prefix-matching `GetLatestVersion`:
run the loop, then report the no-matching-asset error exactly when the
recorded download URL is still the empty sentinel, and otherwise return
the matched download URL and asset name. -/
def selectAsset (assets : List GHAsset) (expectedStem : String) :
    Except GoErr (String × String) :=
  let r := resolveAssetLoop assets expectedStem
  if r.1 = "" then
    .error (.base ("no matching asset found for " ++ expectedStem ++
      " (available assets: " ++ String.mk (natDecimal assets.length) ++ ")"))
  else .ok r

/-! ## Helper lemmas -/

/-- Rebuilding a string from its characters is the identity. -/
theorem stringMkData (s : String) : String.mk s.data = s := by
  cases s
  rfl

/-- Characters of a concatenation. -/
theorem stringDataAppend (s t : String) : (s ++ t).data = s.data ++ t.data := by
  cases s
  cases t
  rfl

/-- A lookup for key `p` fails on a list filtered to keys other than
`p`. -/
theorem find_filter_self (files : List (String × FileData)) (p : String) :
    (files.filter (fun e => e.1 ≠ p)).find? (fun e => e.1 = p) = none := by
  induction files with
  | nil => rfl
  | cons a rest ih =>
    by_cases h : a.1 = p
    · simp [List.filter, h, ih]
    · simp [List.filter, h, List.find?, ih]

/-- A lookup for key `q` ignores a filter that removes a different key
`p`. -/
theorem find_filter_other (files : List (String × FileData)) (p q : String)
    (h : q ≠ p) :
    (files.filter (fun e => e.1 ≠ p)).find? (fun e => e.1 = q) =
      files.find? (fun e => e.1 = q) := by
  induction files with
  | nil => rfl
  | cons a rest ih =>
    by_cases hp : a.1 = p
    · have hq : a.1 ≠ q := fun hh => h (hp ▸ hh ▸ rfl)
      rw [List.filter_cons_of_neg (by simp [hp]),
        List.find?_cons_of_neg _ (by simp [hq]), ih]
    · by_cases hq : a.1 = q
      · rw [List.filter_cons_of_pos (by simp [hp]),
          List.find?_cons_of_pos _ (by simp [hq]),
          List.find?_cons_of_pos _ (by simp [hq])]
      · rw [List.filter_cons_of_pos (by simp [hp]),
          List.find?_cons_of_neg _ (by simp [hq]),
          List.find?_cons_of_neg _ (by simp [hq]), ih]

set_option maxRecDepth 100000

/-- C1: if the SHA1 hex digest of the binary buffer differs from the
expected checksum, `verifyAndSaveBinary` returns the checksum-mismatch
error and leaves the filesystem untouched: neither the binary file nor
`version.txt` is written, so the version record is only ever written
after checksum verification succeeds. -/
theorem claim_C1 (fs : FS) (destPath installDir : String)
    (binaryData : List Nat) (latestVersion checksum : List Char)
    (h : sha1HexChars binaryData ≠ checksum) :
    verifyAndSaveBinary fs destPath installDir binaryData latestVersion
        checksum =
      (fs, .error (checksumMismatchErr checksum (sha1HexChars binaryData))) := by
  simp only [verifyAndSaveBinary]
  rw [if_pos h]

/-- Witness for C1 at a concrete mismatching input. -/
theorem claim_C1_witness :
    sha1HexChars [] ≠ "deadbeef".data ∧
    verifyAndSaveBinary ⟨[], [], [], false⟩ "/e/bin/aqua-speed-linux-x64"
        "/e" [] "1.2.0".data "deadbeef".data =
      (⟨[], [], [], false⟩,
       .error (checksumMismatchErr "deadbeef".data (sha1HexChars []))) :=
  ⟨by decide,
   claim_C1 ⟨[], [], [], false⟩ "/e/bin/aqua-speed-linux-x64" "/e" []
     "1.2.0".data "deadbeef".data (by decide)⟩

/-- C2 as stated is false: the rollback deletes the binary and this
call writes no version record, but a version record left by an earlier
install survives, so after the rollback the version record exists while
the binary does not — refuting "afterwards either both the version
record and the binary exist or neither does".  Concretely: a prior
record is on disk, the binary write succeeds, the version-record write
fails. -/
theorem claim_C2_counterexample :
    (fsGet (verifyAndSaveBinary
        ⟨[], [("/e/version.txt", .txt "1.0.0 aaaa\n".data)],
         ["/e/version.txt"], false⟩
        "/e/bin/aqua-speed-linux-x64" "/e" [] "1.2.0".data
        (sha1HexChars [])).1 "/e/version.txt").isSome = true ∧
    fsGet (verifyAndSaveBinary
        ⟨[], [("/e/version.txt", .txt "1.0.0 aaaa\n".data)],
         ["/e/version.txt"], false⟩
        "/e/bin/aqua-speed-linux-x64" "/e" [] "1.2.0".data
        (sha1HexChars [])).1 "/e/bin/aqua-speed-linux-x64" = none := by
  constructor
  · decide
  · decide

/-- C2 amended: when the binary write succeeds and the version-record
write fails, the installed binary is removed again and the error is
returned wrapped with the `save version information` context; the
version record itself is left exactly as it was before the call (in
particular, when no version record existed beforehand, neither record
nor binary exists afterwards; a record from an earlier install is not
removed). -/
theorem claim_C2 (fs : FS) (destPath installDir : String)
    (binaryData : List Nat) (latestVersion checksum : List Char)
    (hsum : sha1HexChars binaryData = checksum)
    (hbin : destPath ∉ fs.failPaths)
    (hver : (installDir ++ "/version.txt") ∈ fs.failPaths) :
    (verifyAndSaveBinary fs destPath installDir binaryData latestVersion
        checksum).2 =
      .error (.wrap "save version information"
        (.base ("write " ++ (installDir ++ "/version.txt") ++ " failed"))) ∧
    fsGet (verifyAndSaveBinary fs destPath installDir binaryData
        latestVersion checksum).1 destPath = none ∧
    fsGet (verifyAndSaveBinary fs destPath installDir binaryData
        latestVersion checksum).1 (installDir ++ "/version.txt") =
      fsGet fs (installDir ++ "/version.txt") := by
  have hne : destPath ≠ installDir ++ "/version.txt" := by
    intro heq
    exact hbin (heq ▸ hver)
  have hred : verifyAndSaveBinary fs destPath installDir binaryData
      latestVersion checksum =
      (fsRemove
        { fs with files :=
            fs.files.filter (fun e => e.1 ≠ destPath) ++
              [(destPath, .bin binaryData)] } destPath,
       .error (.wrap "save version information"
         (.base ("write " ++ (installDir ++ "/version.txt") ++ " failed")))) := by
    simp only [verifyAndSaveBinary, writeVersionInfo, fsWrite]
    rw [if_neg (by simp [hsum])]
    rw [if_neg hbin]
    simp only []
    rw [if_pos hver]
  rw [hred]
  refine ⟨rfl, ?_, ?_⟩
  · simp only [fsRemove, fsGet]
    rw [find_filter_self]
    rfl
  · simp only [fsRemove, fsGet]
    rw [find_filter_other _ _ _ (fun hh => hne hh.symm)]
    rw [List.find?_append]
    have hsingle : List.find?
        (fun e => decide (e.1 = installDir ++ "/version.txt"))
        [(destPath, FileData.bin binaryData)] = none := by
      simp [hne]
    rw [hsingle]
    simp only [Option.or_none]
    rw [find_filter_other _ _ _ (fun hh => hne hh.symm)]

/-- Witness for C2 (amended) at a concrete input: empty filesystem,
binary write succeeding, version-record write failing. -/
theorem claim_C2_witness :
    (sha1HexChars [] = sha1HexChars [] ∧
     "/e/bin/aqua-speed-linux-x64" ∉ (["/e/version.txt"] : List String) ∧
     ("/e" ++ "/version.txt") ∈ (["/e/version.txt"] : List String)) ∧
    ((verifyAndSaveBinary ⟨[], [], ["/e/version.txt"], false⟩
        "/e/bin/aqua-speed-linux-x64" "/e" [] "1.2.0".data
        (sha1HexChars [])).2 =
      .error (.wrap "save version information"
        (.base ("write " ++ ("/e" ++ "/version.txt") ++ " failed"))) ∧
     fsGet (verifyAndSaveBinary ⟨[], [], ["/e/version.txt"], false⟩
        "/e/bin/aqua-speed-linux-x64" "/e" [] "1.2.0".data
        (sha1HexChars [])).1 "/e/bin/aqua-speed-linux-x64" = none ∧
     fsGet (verifyAndSaveBinary ⟨[], [], ["/e/version.txt"], false⟩
        "/e/bin/aqua-speed-linux-x64" "/e" [] "1.2.0".data
        (sha1HexChars [])).1 ("/e" ++ "/version.txt") =
       fsGet ⟨[], [], ["/e/version.txt"], false⟩ ("/e" ++ "/version.txt")) :=
  ⟨⟨rfl, by decide, by decide⟩,
   claim_C2 ⟨[], [], ["/e/version.txt"], false⟩
     "/e/bin/aqua-speed-linux-x64" "/e" [] "1.2.0".data
     (sha1HexChars []) rfl (by decide) (by decide)⟩

/-- C3 as stated is false: a failure of `GetLatestVersion` does not
propagate out of `CheckAndUpdate`.  `NeedsUpdate` swallows the error
(logging it and reporting "no update needed"), so `CheckAndUpdate`
returns success.  Concretely: the release fetch fails with a network
error, yet `CheckAndUpdate` returns `ok`. -/
theorem claim_C3_counterexample :
    getLatestVersionModel
        ⟨"/etc/aqua-speed", "aqua-speed-linux-x64", "linux", "x64",
         ⟨1, 0, 0, [], []⟩⟩
        (.error (.base "network unreachable")) =
      .error (.base "network unreachable") ∧
    (checkAndUpdateModel
        ⟨"/etc/aqua-speed", "aqua-speed-linux-x64", "linux", "x64",
         ⟨1, 0, 0, [], []⟩⟩
        ⟨.error (.base "network unreachable"), .error (.base "x"),
         .error (.base "x"), .error (.base "x")⟩
        ⟨[], [], [], false⟩).2 = .ok () :=
  ⟨rfl, rfl⟩

/-- C3 amended: every error raised after the update decision propagates
out of `CheckAndUpdate` wrapped with an operation-context label
(directory creation, temporary-directory creation, download, archive
reading), and no recovery happens beyond the binary-delete rollback;
however a `GetLatestVersion` failure is swallowed by `NeedsUpdate`,
which logs it and reports no update needed, so `CheckAndUpdate` then
returns success instead of that error. -/
theorem claim_C3 :
    (∀ (cfg : UpdCfg) (env : UpdEnv) (fs : FS) (e : GoErr),
       fs.mkdirFail = false → env.release = .error e →
       checkAndUpdateModel cfg env fs =
         ((fsMkdirAll fs (cfg.installDir ++ "/bin")).1, .ok ())) ∧
    (∀ (cfg : UpdCfg) (env : UpdEnv) (fs : FS),
       fs.mkdirFail = true →
       checkAndUpdateModel cfg env fs =
         (fs, .error (.wrap "create installation directory"
           (.base ("mkdir " ++ (cfg.installDir ++ "/bin") ++ " failed"))))) ∧
    (∀ (cfg : UpdCfg) (env : UpdEnv) (fs : FS) (lv : Semver)
       (url an : String) (e : GoErr),
       fs.mkdirFail = false →
       needsUpdateModel cfg env.release = some (lv, url, an) →
       env.tempDir = .error e →
       (checkAndUpdateModel cfg env fs).2 =
         .error (.wrap "create temporary directory" e)) ∧
    (∀ (cfg : UpdCfg) (env : UpdEnv) (fs : FS) (lv : Semver)
       (url an tmp : String) (e : GoErr),
       fs.mkdirFail = false →
       needsUpdateModel cfg env.release = some (lv, url, an) →
       env.tempDir = .ok tmp → env.download = .error e →
       (checkAndUpdateModel cfg env fs).2 =
         .error (.wrap "download file" (.wrap "download" e))) ∧
    (∀ (cfg : UpdCfg) (env : UpdEnv) (fs : FS) (lv : Semver)
       (url an tmp : String) (dd : List Nat) (e : GoErr),
       fs.mkdirFail = false →
       needsUpdateModel cfg env.release = some (lv, url, an) →
       env.tempDir = .ok tmp → env.download = .ok dd →
       (tmp ++ "/" ++ an) ∉ fs.failPaths →
       env.entries = .error e →
       (checkAndUpdateModel cfg env fs).2 =
         .error (.wrap "read archive contents"
           (.wrap "create archive reader" e))) := by
  refine ⟨?_, ?_, ?_, ?_, ?_⟩
  · intro cfg env fs e hm hrel
    simp [checkAndUpdateModel, fsMkdirAll, hm, needsUpdateModel,
      getLatestVersionModel, hrel]
  · intro cfg env fs hm
    simp [checkAndUpdateModel, fsMkdirAll, hm]
  · intro cfg env fs lv url an e hm hn ht
    simp [checkAndUpdateModel, fsMkdirAll, hm, hn, ht]
  · intro cfg env fs lv url an tmp e hm hn ht hd
    simp [checkAndUpdateModel, fsMkdirAll, hm, hn, ht,
      performUpdateModel, hd]
  · intro cfg env fs lv url an tmp dd e hm hn ht hd hw hent
    simp [checkAndUpdateModel, fsMkdirAll, hm, hn, ht,
      performUpdateModel, hd, fsWrite, hw, readArchiveContentsModel, hent]

/-- Witness for C3 (amended), applying the swallowed-error conjunct at
a concrete input. -/
theorem claim_C3_witness :
    ((⟨[], [], [], false⟩ : FS).mkdirFail = false ∧
     (⟨.error (.base "boom"), .error (.base "x"), .error (.base "x"),
       .error (.base "x")⟩ : UpdEnv).release = .error (.base "boom")) ∧
    checkAndUpdateModel
        ⟨"/etc/aqua-speed", "aqua-speed-linux-x64", "linux", "x64",
         ⟨1, 0, 0, [], []⟩⟩
        ⟨.error (.base "boom"), .error (.base "x"), .error (.base "x"),
         .error (.base "x")⟩
        ⟨[], [], [], false⟩ =
      ((fsMkdirAll ⟨[], [], [], false⟩
         ("/etc/aqua-speed" ++ "/bin")).1, .ok ()) :=
  ⟨⟨rfl, rfl⟩,
   claim_C3.1
     ⟨"/etc/aqua-speed", "aqua-speed-linux-x64", "linux", "x64",
      ⟨1, 0, 0, [], []⟩⟩
     ⟨.error (.base "boom"), .error (.base "x"), .error (.base "x"),
      .error (.base "x")⟩
     ⟨[], [], [], false⟩ (.base "boom") rfl rfl⟩

/-- C4 as stated is false: `CheckAndUpdate` runs `os.MkdirAll` on the
install `bin` directory before the version check, so an up-to-date run
still creates a directory when the install directory is missing.
Concretely: the filesystem starts with no directories, the latest
release equals the current version (so `NeedsUpdate` is false), yet
after the successful run the `bin` directory has been created. -/
theorem claim_C4_counterexample :
    needsUpdateModel
        ⟨"/etc/aqua-speed", "aqua-speed-linux-x64", "linux", "x64",
         ⟨1, 0, 0, [], []⟩⟩
        (.ok ⟨"v1.0.0",
          [⟨"aqua-speed-linux-x64_v1.0.0.tar.xz", "u"⟩]⟩) = none ∧
    (checkAndUpdateModel
        ⟨"/etc/aqua-speed", "aqua-speed-linux-x64", "linux", "x64",
         ⟨1, 0, 0, [], []⟩⟩
        ⟨.ok ⟨"v1.0.0", [⟨"aqua-speed-linux-x64_v1.0.0.tar.xz", "u"⟩]⟩,
         .error (.base "x"), .error (.base "x"), .error (.base "x")⟩
        ⟨[], [], [], false⟩).2 = .ok () ∧
    (checkAndUpdateModel
        ⟨"/etc/aqua-speed", "aqua-speed-linux-x64", "linux", "x64",
         ⟨1, 0, 0, [], []⟩⟩
        ⟨.ok ⟨"v1.0.0", [⟨"aqua-speed-linux-x64_v1.0.0.tar.xz", "u"⟩]⟩,
         .error (.base "x"), .error (.base "x"), .error (.base "x")⟩
        ⟨[], [], [], false⟩).1.dirs ≠ ([] : List String) := by
  refine ⟨by decide, rfl, by decide⟩

/-- C4 amended: when `NeedsUpdate` reports no update, `CheckAndUpdate`
returns success and its only filesystem mutation is the unconditional
`MkdirAll` of the install `bin` directory that runs before the version
check; no file is created, written, or removed. -/
theorem claim_C4 (cfg : UpdCfg) (env : UpdEnv) (fs : FS)
    (hm : fs.mkdirFail = false)
    (hn : needsUpdateModel cfg env.release = none) :
    checkAndUpdateModel cfg env fs =
      ((fsMkdirAll fs (cfg.installDir ++ "/bin")).1, .ok ()) ∧
    (checkAndUpdateModel cfg env fs).1.files = fs.files := by
  have h1 : checkAndUpdateModel cfg env fs =
      ((fsMkdirAll fs (cfg.installDir ++ "/bin")).1, .ok ()) := by
    simp [checkAndUpdateModel, fsMkdirAll, hm, hn]
  refine ⟨h1, ?_⟩
  rw [h1]
  simp [fsMkdirAll, hm]

/-- Witness for C4 (amended) at the concrete up-to-date input. -/
theorem claim_C4_witness :
    ((⟨[], [], [], false⟩ : FS).mkdirFail = false ∧
     needsUpdateModel
       ⟨"/etc/aqua-speed", "aqua-speed-linux-x64", "linux", "x64",
        ⟨1, 0, 0, [], []⟩⟩
       (.ok ⟨"v1.0.0",
         [⟨"aqua-speed-linux-x64_v1.0.0.tar.xz", "u"⟩]⟩) = none) ∧
    (checkAndUpdateModel
        ⟨"/etc/aqua-speed", "aqua-speed-linux-x64", "linux", "x64",
         ⟨1, 0, 0, [], []⟩⟩
        ⟨.ok ⟨"v1.0.0", [⟨"aqua-speed-linux-x64_v1.0.0.tar.xz", "u"⟩]⟩,
         .error (.base "x"), .error (.base "x"), .error (.base "x")⟩
        ⟨[], [], [], false⟩ =
      ((fsMkdirAll ⟨[], [], [], false⟩
         ("/etc/aqua-speed" ++ "/bin")).1, .ok ()) ∧
     (checkAndUpdateModel
        ⟨"/etc/aqua-speed", "aqua-speed-linux-x64", "linux", "x64",
         ⟨1, 0, 0, [], []⟩⟩
        ⟨.ok ⟨"v1.0.0", [⟨"aqua-speed-linux-x64_v1.0.0.tar.xz", "u"⟩]⟩,
         .error (.base "x"), .error (.base "x"), .error (.base "x")⟩
        ⟨[], [], [], false⟩).1.files =
       (⟨[], [], [], false⟩ : FS).files) :=
  ⟨⟨rfl, by decide⟩,
   claim_C4
     ⟨"/etc/aqua-speed", "aqua-speed-linux-x64", "linux", "x64",
      ⟨1, 0, 0, [], []⟩⟩
     ⟨.ok ⟨"v1.0.0", [⟨"aqua-speed-linux-x64_v1.0.0.tar.xz", "u"⟩]⟩,
      .error (.base "x"), .error (.base "x"), .error (.base "x")⟩
     ⟨[], [], [], false⟩ rfl (by decide)⟩

/-- The asset loop of the prefix-matching `GetLatestVersion` records
exactly the first asset that is not named `checksums.txt` and whose
name starts with the expected prefix, and the zero values when none
matches. -/
theorem resolveAssetLoop_eq_find (assets : List GHAsset) (stem : String) :
    resolveAssetLoop assets stem =
      match assets.find? (fun a => !(a.name = "checksums.txt") &&
          goStartsWith a.name.data stem.data) with
      | some a => (a.browserDownloadURL, a.name)
      | none => ("", "") := by
  induction assets with
  | nil => rfl
  | cons a rest ih =>
    by_cases hc : a.name = "checksums.txt"
    · rw [List.find?_cons_of_neg _ (by simp [hc])]
      simp only [resolveAssetLoop, if_pos hc]
      exact ih
    · by_cases hp : goStartsWith a.name.data stem.data = true
      · rw [List.find?_cons_of_pos _ (by simp [hc, hp])]
        simp [resolveAssetLoop, hc, hp]
      · rw [List.find?_cons_of_neg _ (by simp [hc, hp])]
        simp only [resolveAssetLoop, if_neg hc]
        rw [if_neg (by simp [hp])]
        exact ih

/-- C5: the asset resolution of the prefix-matching `GetLatestVersion`
walks the release assets in order, always skips any asset literally
named `checksums.txt`, and selects the download URL and name of the
first remaining asset whose name starts with the expected
`aqua-speed-os-arch` prefix built from the OS name and normalized
architecture (provided that asset carries a download URL, since the
code detects a match through the URL sentinel); a selected asset is
never `checksums.txt` and always prefix-matches; when no asset
matches, it fails with the no-matching-asset error carrying the
expected prefix and asset count. -/
theorem claim_C5 :
    (∀ (assets : List GHAsset) (osName arch : String),
       resolveAssetLoop assets (expectedAssetStem osName arch) =
         match assets.find? (fun a => !(a.name = "checksums.txt") &&
             goStartsWith a.name.data
               (expectedAssetStem osName arch).data) with
         | some a => (a.browserDownloadURL, a.name)
         | none => ("", "")) ∧
    (∀ (assets : List GHAsset) (stem : String) (a : GHAsset),
       assets.find? (fun a => !(a.name = "checksums.txt") &&
           goStartsWith a.name.data stem.data) = some a →
       a.browserDownloadURL ≠ "" →
       selectAsset assets stem = .ok (a.browserDownloadURL, a.name)) ∧
    (∀ (assets : List GHAsset) (stem url name : String),
       selectAsset assets stem = .ok (url, name) →
       name ≠ "checksums.txt" ∧
       goStartsWith name.data stem.data = true) ∧
    (∀ (assets : List GHAsset) (stem : String),
       (∀ a ∈ assets, a.name = "checksums.txt" ∨
          goStartsWith a.name.data stem.data = false) →
       selectAsset assets stem =
         .error (.base ("no matching asset found for " ++ stem ++
           " (available assets: " ++
           String.mk (natDecimal assets.length) ++ ")"))) := by
  refine ⟨?_, ?_, ?_, ?_⟩
  · intro assets osName arch
    exact resolveAssetLoop_eq_find assets (expectedAssetStem osName arch)
  · intro assets stem a hfind hurl
    simp only [selectAsset]
    rw [resolveAssetLoop_eq_find, hfind]
    simp only []
    rw [if_neg hurl]
  · intro assets stem url name h
    simp only [selectAsset] at h
    rw [resolveAssetLoop_eq_find] at h
    cases hfind : assets.find? (fun a => !(a.name = "checksums.txt") &&
        goStartsWith a.name.data stem.data) with
    | none =>
      rw [hfind] at h
      simp at h
    | some a =>
      rw [hfind] at h
      by_cases hu : a.browserDownloadURL = ""
      · rw [if_pos hu] at h
        exact absurd h (by simp)
      · rw [if_neg hu] at h
        have hpred := List.find?_some hfind
        have hname : name = a.name := by
          cases h
          rfl
        simp only [Bool.and_eq_true, Bool.not_eq_true', decide_eq_false_iff_not]
          at hpred
        exact ⟨hname ▸ hpred.1, hname ▸ hpred.2⟩
  · intro assets stem hall
    have hnone : assets.find? (fun a => !(a.name = "checksums.txt") &&
        goStartsWith a.name.data stem.data) = none := by
      rw [List.find?_eq_none]
      intro a ha
      rcases hall a ha with h | h
      · simp [h]
      · simp [h]
    simp only [selectAsset]
    rw [resolveAssetLoop_eq_find, hnone]
    rfl

/-- Witness for C5 at concrete asset lists: a matching asset after the
checksums file is selected with its URL and name, a selected asset is
never the checksums file and prefix-matches, and a list with only the
checksums file and a non-matching asset fails with the counted
no-matching-asset error. -/
theorem claim_C5_witness :
    (([⟨"checksums.txt", "u"⟩,
       ⟨"aqua-speed-linux-x64_v1.0.0.tar.xz", "u"⟩] :
        List GHAsset).find? (fun a => !(a.name = "checksums.txt") &&
          goStartsWith a.name.data
            (expectedAssetStem "linux" "amd64").data) =
       some ⟨"aqua-speed-linux-x64_v1.0.0.tar.xz", "u"⟩ ∧
     selectAsset
        [⟨"checksums.txt", "u"⟩,
         ⟨"aqua-speed-linux-x64_v1.0.0.tar.xz", "u"⟩]
        (expectedAssetStem "linux" "amd64") =
       .ok ((⟨"aqua-speed-linux-x64_v1.0.0.tar.xz", "u"⟩ :
         GHAsset).browserDownloadURL,
         (⟨"aqua-speed-linux-x64_v1.0.0.tar.xz", "u"⟩ : GHAsset).name)) ∧
    (("aqua-speed-linux-x64_v1.0.0.tar.xz" : String) ≠ "checksums.txt" ∧
     goStartsWith "aqua-speed-linux-x64_v1.0.0.tar.xz".data
       (expectedAssetStem "linux" "amd64").data = true) ∧
    ((∀ a ∈ ([⟨"checksums.txt", "u"⟩,
        ⟨"aqua-speed-windows-x64.zip", "u"⟩] : List GHAsset),
        a.name = "checksums.txt" ∨
        goStartsWith a.name.data
          (expectedAssetStem "linux" "amd64").data = false) ∧
     selectAsset
        [⟨"checksums.txt", "u"⟩, ⟨"aqua-speed-windows-x64.zip", "u"⟩]
        (expectedAssetStem "linux" "amd64") =
       .error (.base ("no matching asset found for " ++
         expectedAssetStem "linux" "amd64" ++ " (available assets: " ++
         String.mk (natDecimal ([⟨"checksums.txt", "u"⟩,
           ⟨"aqua-speed-windows-x64.zip", "u"⟩] :
             List GHAsset).length) ++ ")"))) :=
  ⟨⟨by decide,
    claim_C5.2.1
      [⟨"checksums.txt", "u"⟩,
       ⟨"aqua-speed-linux-x64_v1.0.0.tar.xz", "u"⟩]
      (expectedAssetStem "linux" "amd64")
      ⟨"aqua-speed-linux-x64_v1.0.0.tar.xz", "u"⟩
      (by decide) (by decide)⟩,
   claim_C5.2.2.1
     [⟨"checksums.txt", "u"⟩,
      ⟨"aqua-speed-linux-x64_v1.0.0.tar.xz", "u"⟩]
     (expectedAssetStem "linux" "amd64")
     "u" "aqua-speed-linux-x64_v1.0.0.tar.xz" (by decide),
   ⟨by decide,
    claim_C5.2.2.2
      [⟨"checksums.txt", "u"⟩, ⟨"aqua-speed-windows-x64.zip", "u"⟩]
      (expectedAssetStem "linux" "amd64") (by decide)⟩⟩

/-- C6: `needsUpdate` is true exactly when the latest version compares
strictly greater than the current one under semantic-versioning
precedence, and the three example pairs of the spec evaluate as
claimed (with the example version strings parsing to the expected
triples). -/
theorem claim_C6 :
    (∀ current latest : Semver,
       needsUpdateV current latest = decide (0 < compareV latest current)) ∧
    ParseVersion "1.0.0" = .ok ⟨1, 0, 0, [], []⟩ ∧
    ParseVersion "1.1.0" = .ok ⟨1, 1, 0, [], []⟩ ∧
    ParseVersion "2.0.0" = .ok ⟨2, 0, 0, [], []⟩ ∧
    ParseVersion "1.9.9" = .ok ⟨1, 9, 9, [], []⟩ ∧
    needsUpdateV ⟨1, 0, 0, [], []⟩ ⟨1, 0, 0, [], []⟩ = false ∧
    needsUpdateV ⟨1, 0, 0, [], []⟩ ⟨1, 1, 0, [], []⟩ = true ∧
    needsUpdateV ⟨2, 0, 0, [], []⟩ ⟨1, 9, 9, [], []⟩ = false := by
  refine ⟨?_, by decide, by decide, by decide, by decide,
    by decide, by decide, by decide⟩
  intro c l
  unfold needsUpdateV
  by_cases h : compareV l c ≤ 0
  · rw [if_pos h, decide_eq_false (by omega : ¬ (0 : Int) < compareV l c)]
  · rw [if_neg h, decide_eq_true (by omega : (0 : Int) < compareV l c)]

/-- C7: `ParseVersion` strips one leading `v` and fails with the
invalid-version-format error whenever the remaining text does not start
with `digits.digits.digits`; a `v`-prefixed string parses identically
to the bare string, `v1.2.3` and `1.2.3` parse to the same triple, and
`abc`, the empty string and `1.2` are rejected. -/
theorem claim_C7 :
    (∀ s : String, dddStart (goTrimLeading s.data ['v']) = false →
       ParseVersion s = .error (.base ("invalid version format: " ++
         String.mk (goTrimLeading s.data ['v'])))) ∧
    (∀ s : String, goStartsWith s.data ['v'] = false →
       ParseVersion ("v" ++ s) = ParseVersion s) ∧
    ParseVersion "v1.2.3" = ParseVersion "1.2.3" ∧
    ParseVersion "1.2.3" = .ok ⟨1, 2, 3, [], []⟩ ∧
    ParseVersion "abc" = .error (.base "invalid version format: abc") ∧
    ParseVersion "" = .error (.base "invalid version format: ") ∧
    ParseVersion "1.2" = .error (.base "invalid version format: 1.2") := by
  refine ⟨?_, ?_, by decide, by decide, by decide, by decide, by decide⟩
  · intro s h
    simp only [ParseVersion]
    rw [if_neg (by simp [h])]
  · intro s h
    simp only [ParseVersion]
    rw [stringDataAppend]
    have hv : "v".data = ['v'] := rfl
    rw [hv]
    simp [goTrimLeading, goStartsWith, h]

/-- Witness for C7, applying the invalid-format conjunct at `abc` and
the `v`-stripping conjunct at `1.2.3`. -/
theorem claim_C7_witness :
    (dddStart (goTrimLeading "abc".data ['v']) = false ∧
     ParseVersion "abc" = .error (.base ("invalid version format: " ++
       String.mk (goTrimLeading "abc".data ['v'])))) ∧
    (goStartsWith "1.2.3".data ['v'] = false ∧
     ParseVersion ("v" ++ "1.2.3") = ParseVersion "1.2.3") :=
  ⟨⟨by decide, claim_C7.1 "abc" (by decide)⟩,
   ⟨by decide, claim_C7.2.1 "1.2.3" (by decide)⟩⟩

/-- A scan step never clears the binary-found flag. -/
theorem racStep_foundB_mono (isW : Bool) (bn : String) (st : ScanSt)
    (e : Entry) (h : st.foundB = true) :
    (racStep isW bn st e).foundB = true := by
  unfold racStep
  by_cases h1 : goEndsWith e.name.data "checksum.txt".data = true
  · simp [h1, h]
  · by_cases h2 : isTargetBinary isW bn e.name = true
    · simp [h1, h2]
    · simp [h1, h2, h]

/-- A scan step never clears the checksum-found flag. -/
theorem racStep_foundC_mono (isW : Bool) (bn : String) (st : ScanSt)
    (e : Entry) (h : st.foundC = true) :
    (racStep isW bn st e).foundC = true := by
  unfold racStep
  by_cases h1 : goEndsWith e.name.data "checksum.txt".data = true
  · simp [h1]
  · by_cases h2 : isTargetBinary isW bn e.name = true
    · simp [h1, h2, h]
    · simp [h1, h2, h]

/-- A scan step leaves the binary-found flag unchanged on an entry that
does not match the binary heuristic. -/
theorem racStep_foundB_skip (isW : Bool) (bn : String) (st : ScanSt)
    (e : Entry) (h : isTargetBinary isW bn e.name = false) :
    (racStep isW bn st e).foundB = st.foundB := by
  unfold racStep
  by_cases h1 : goEndsWith e.name.data "checksum.txt".data = true
  · simp [h1]
  · simp [h1, h]

/-- A scan step leaves the checksum-found flag unchanged on an entry
whose name does not end in the checksum suffix. -/
theorem racStep_foundC_skip (isW : Bool) (bn : String) (st : ScanSt)
    (e : Entry) (h : goEndsWith e.name.data "checksum.txt".data = false) :
    (racStep isW bn st e).foundC = st.foundC := by
  unfold racStep
  by_cases h2 : isTargetBinary isW bn e.name = true
  · simp [h, h2]
  · simp [h, h2]

/-- The scan loop never clears the binary-found flag. -/
theorem racLoop_foundB_mono (isW : Bool) (bn : String) :
    ∀ (l : List Entry) (st : ScanSt), st.foundB = true →
      (racLoop isW bn l st).foundB = true := by
  intro l
  induction l with
  | nil => intro st h; exact h
  | cons e tl ih =>
    intro st h
    simp only [racLoop]
    by_cases hbr :
        ((racStep isW bn st e).foundB && (racStep isW bn st e).foundC) = true
    · rw [if_pos hbr]
      exact racStep_foundB_mono isW bn st e h
    · rw [if_neg hbr]
      exact ih _ (racStep_foundB_mono isW bn st e h)

/-- Once the scan has found both files within a list of entries, any
further entries are never examined: the loop result over the extended
list is unchanged. -/
theorem racLoop_append_of_found (isW : Bool) (bn : String) :
    ∀ (l1 l2 : List Entry) (st : ScanSt),
      ¬(st.foundB = true ∧ st.foundC = true) →
      (racLoop isW bn l1 st).foundB = true →
      (racLoop isW bn l1 st).foundC = true →
      racLoop isW bn (l1 ++ l2) st = racLoop isW bn l1 st := by
  intro l1
  induction l1 with
  | nil =>
    intro l2 st hne hb hc
    exact absurd ⟨hb, hc⟩ hne
  | cons e tl ih =>
    intro l2 st hne hb hc
    simp only [List.cons_append, racLoop]
    by_cases hbr :
        ((racStep isW bn st e).foundB && (racStep isW bn st e).foundC) = true
    · rw [if_pos hbr, if_pos hbr]
    · rw [if_neg hbr, if_neg hbr]
      simp only [racLoop] at hb hc
      rw [if_neg hbr] at hb hc
      exact ih l2 (racStep isW bn st e) (by
        intro hand
        exact hbr (by simp [hand.1, hand.2])) hb hc

/-- With no entry matching the binary heuristic, the scan never sets
the binary-found flag. -/
theorem racLoop_foundB_false (isW : Bool) (bn : String) :
    ∀ (l : List Entry) (st : ScanSt),
      (∀ e ∈ l, isTargetBinary isW bn e.name = false) →
      st.foundB = false → (racLoop isW bn l st).foundB = false := by
  intro l
  induction l with
  | nil => intro st _ h; exact h
  | cons e tl ih =>
    intro st hall h
    have hstep : (racStep isW bn st e).foundB = false := by
      rw [racStep_foundB_skip isW bn st e (hall e (by simp))]
      exact h
    simp only [racLoop]
    rw [if_neg (by simp [hstep])]
    exact ih _ (fun x hx => hall x (by simp [hx])) hstep

/-- With no entry name ending in the checksum suffix, the scan never
sets the checksum-found flag. -/
theorem racLoop_foundC_false (isW : Bool) (bn : String) :
    ∀ (l : List Entry) (st : ScanSt),
      (∀ e ∈ l, goEndsWith e.name.data "checksum.txt".data = false) →
      st.foundC = false → (racLoop isW bn l st).foundC = false := by
  intro l
  induction l with
  | nil => intro st _ h; exact h
  | cons e tl ih =>
    intro st hall h
    have hstep : (racStep isW bn st e).foundC = false := by
      rw [racStep_foundC_skip isW bn st e (hall e (by simp))]
      exact h
    simp only [racLoop]
    rw [if_neg (by simp [hstep])]
    exact ih _ (fun x hx => hall x (by simp [hx])) hstep

/-- With a matching binary entry present and no checksum-suffix entry,
the scan reaches the binary and sets the binary-found flag. -/
theorem racLoop_foundB_true (isW : Bool) (bn : String) :
    ∀ (l : List Entry) (st : ScanSt),
      (∀ e ∈ l, goEndsWith e.name.data "checksum.txt".data = false) →
      (∃ e ∈ l, isTargetBinary isW bn e.name = true) →
      st.foundC = false → (racLoop isW bn l st).foundB = true := by
  intro l
  induction l with
  | nil =>
    intro st _ hex _
    simp at hex
  | cons e tl ih =>
    intro st hall hex hc
    have hcstep : (racStep isW bn st e).foundC = false := by
      rw [racStep_foundC_skip isW bn st e (hall e (by simp))]
      exact hc
    simp only [racLoop]
    rw [if_neg (by simp [hcstep])]
    by_cases hm : isTargetBinary isW bn e.name = true
    · have hbstep : (racStep isW bn st e).foundB = true := by
        unfold racStep
        rw [if_neg (by simp [hall e (by simp)]), if_pos hm]
      exact racLoop_foundB_mono isW bn tl _ hbstep
    · rcases hex with ⟨e', he', ht⟩
      rcases List.mem_cons.mp he' with h1 | h1
      · exact absurd (h1 ▸ ht) (by simp [hm])
      · exact ih _ (fun x hx => hall x (by simp [hx])) ⟨e', h1, ht⟩ hcstep

/-- C8: the archive scan stops as soon as both the checksum file and
the target binary are found (entries after that point never affect the
result), an archive with no entry matching the binary heuristic fails
with `NoExecutableFound`, and an archive with a matching binary but no
checksum-suffix entry fails with the distinct checksum-file-not-found
error. -/
theorem claim_C8 :
    (∀ (isW : Bool) (bn : String) (entries rest : List Entry),
       (racLoop isW bn entries scanInit).foundB = true →
       (racLoop isW bn entries scanInit).foundC = true →
       readArchiveCore isW bn (entries ++ rest) =
         readArchiveCore isW bn entries) ∧
    (∀ (isW : Bool) (bn : String) (entries : List Entry),
       (∀ e ∈ entries, isTargetBinary isW bn e.name = false) →
       readArchiveCore isW bn entries = .error ErrNoExecutableFound) ∧
    (∀ (isW : Bool) (bn : String) (entries : List Entry),
       (∃ e ∈ entries, isTargetBinary isW bn e.name = true) →
       (∀ e ∈ entries, goEndsWith e.name.data "checksum.txt".data = false) →
       readArchiveCore isW bn entries =
         .error (.wrap "read archive contents"
           (.base "checksum file not found"))) := by
  refine ⟨?_, ?_, ?_⟩
  · intro isW bn entries rest hb hc
    unfold readArchiveCore
    rw [racLoop_append_of_found isW bn entries rest scanInit
      (by intro h; exact absurd h.1 (by simp [scanInit])) hb hc]
  · intro isW bn entries hall
    have hb : (racLoop isW bn entries scanInit).foundB = false :=
      racLoop_foundB_false isW bn entries scanInit hall rfl
    simp [readArchiveCore, hb]
  · intro isW bn entries hex hall
    have hb : (racLoop isW bn entries scanInit).foundB = true :=
      racLoop_foundB_true isW bn entries scanInit hall hex rfl
    have hc : (racLoop isW bn entries scanInit).foundC = false :=
      racLoop_foundC_false isW bn entries scanInit hall rfl
    simp [readArchiveCore, hb, hc]

/-- Witness for C8, applying the three conjuncts at concrete archives:
an early-stopping scan, a binary-less archive, and a checksum-less
archive. -/
theorem claim_C8_witness :
    ((racLoop false "aqua-speed-linux-x64"
        [⟨"checksum.txt", "aa bin".data.map Char.toNat⟩,
         ⟨"aqua-speed-linux-x64", [1]⟩] scanInit).foundB = true ∧
     (racLoop false "aqua-speed-linux-x64"
        [⟨"checksum.txt", "aa bin".data.map Char.toNat⟩,
         ⟨"aqua-speed-linux-x64", [1]⟩] scanInit).foundC = true ∧
     readArchiveCore false "aqua-speed-linux-x64"
        ([⟨"checksum.txt", "aa bin".data.map Char.toNat⟩,
          ⟨"aqua-speed-linux-x64", [1]⟩] ++ [⟨"ignored.bin", [7]⟩]) =
       readArchiveCore false "aqua-speed-linux-x64"
        [⟨"checksum.txt", "aa bin".data.map Char.toNat⟩,
         ⟨"aqua-speed-linux-x64", [1]⟩]) ∧
    ((∀ e ∈ ([⟨"readme.md", [1]⟩] : List Entry),
        isTargetBinary false "aqua-speed-linux-x64" e.name = false) ∧
     readArchiveCore false "aqua-speed-linux-x64" [⟨"readme.md", [1]⟩] =
       .error ErrNoExecutableFound) ∧
    ((∃ e ∈ ([⟨"aqua-speed-linux-x64", [1]⟩] : List Entry),
        isTargetBinary false "aqua-speed-linux-x64" e.name = true) ∧
     readArchiveCore false "aqua-speed-linux-x64"
        [⟨"aqua-speed-linux-x64", [1]⟩] =
       .error (.wrap "read archive contents"
         (.base "checksum file not found"))) :=
  ⟨⟨by decide, by decide,
    claim_C8.1 false "aqua-speed-linux-x64"
      [⟨"checksum.txt", "aa bin".data.map Char.toNat⟩,
       ⟨"aqua-speed-linux-x64", [1]⟩] [⟨"ignored.bin", [7]⟩]
      (by decide) (by decide)⟩,
   ⟨by decide,
    claim_C8.2.1 false "aqua-speed-linux-x64" [⟨"readme.md", [1]⟩]
      (by decide)⟩,
   ⟨by decide,
    claim_C8.2.2 false "aqua-speed-linux-x64"
      [⟨"aqua-speed-linux-x64", [1]⟩] (by decide) (by decide)⟩⟩

/-- C9: against the target `aqua-speed-windows-amd64.exe` on Windows,
an archive entry matches the binary heuristic exactly when its
lowercased base name ends in `.exe` and, with its extension stripped,
starts with `aqua-speed-windows` — the target name lowercased, minus
extension, minus its last dash-separated segment; in particular
`aqua-speed-windows-amd64_v1.2.3.exe` matches. -/
theorem claim_C9 :
    (∀ name : String,
       isTargetBinary true "aqua-speed-windows-amd64.exe" name =
         (goEndsWith ((filepathBase name.data).map goToLower) ".exe".data &&
          goStartsWith
            (goTrimSuffix ((filepathBase name.data).map goToLower)
              (pathExt (filepathBase name.data)))
            "aqua-speed-windows".data)) ∧
    isTargetBinary true "aqua-speed-windows-amd64.exe"
      "aqua-speed-windows-amd64_v1.2.3.exe" = true := by
  refine ⟨?_, by decide⟩
  intro name
  have esplit : goSplit '-'
      (goTrimSuffix ("aqua-speed-windows-amd64.exe".data.map goToLower)
        (pathExt "aqua-speed-windows-amd64.exe".data)) =
      ["aqua".data, "speed".data, "windows".data, "amd64".data] := by
    decide
  have ejoin : List.intercalate ['-']
      (["aqua".data, "speed".data, "windows".data] : List (List Char)) =
      "aqua-speed-windows".data := by decide
  simp only [isTargetBinary]
  by_cases hsuf :
      goEndsWith ((filepathBase name.data).map goToLower) ".exe".data = true
  · rw [hsuf]
    simp only [Bool.not_true, Bool.and_false, Bool.false_eq_true,
      if_false, Bool.true_and]
    rw [esplit]
    simp only [List.dropLast]
    rw [ejoin]
  · have hf : goEndsWith ((filepathBase name.data).map goToLower)
        ".exe".data = false := by simpa using hsuf
    rw [hf]
    simp

/-- The words of `strings.Fields` applied to a non-space word followed
by a blank: the accumulated word is emitted whole. -/
theorem goFieldsAux_word (rest : List Char) :
    ∀ (v acc : List Char), (∀ ch ∈ v, goIsSpace ch = false) →
      acc.reverse ++ v ≠ [] →
      goFieldsAux (v ++ (' ' :: rest)) acc =
        (acc.reverse ++ v) :: goFieldsAux rest [] := by
  intro v
  induction v with
  | nil =>
    intro acc _ hne
    have hacc : acc ≠ [] := by simpa using hne
    simp [goFieldsAux, goIsSpace, hacc]
  | cons ch tl ih =>
    intro acc hns hne
    have hch : goIsSpace ch = false := hns ch (by simp)
    simp only [List.cons_append, goFieldsAux, hch, Bool.false_eq_true,
      if_false, List.append_eq]
    rw [ih (ch :: acc) (fun x hx => hns x (by simp [hx])) (by simp)]
    simp

/-- C10: writing the version record `"V C\n"` and re-reading it through
the local-version path round-trips the version: for a nonempty version
text with no whitespace, `strings.Fields` on the record yields exactly
the version as the first token, so the new updater parses exactly that
version; the checksum and the newline never leak into it. -/
theorem claim_C10 (v c : List Char) (d : String)
    (hne : v ≠ [])
    (hns : ∀ ch ∈ v, goIsSpace ch = false) :
    localVersionChoice (versionRecordText v c) d = String.mk v ∧
    ParseVersion (localVersionChoice (versionRecordText v c) d) =
      ParseVersion (String.mk v) := by
  have h1 : localVersionChoice (versionRecordText v c) d = String.mk v := by
    unfold localVersionChoice versionRecordText goFields
    rw [goFieldsAux_word (c ++ ['\n']) v [] hns (by simpa using hne)]
    simp
  exact ⟨h1, by rw [h1]⟩

/-- Witness for C10 at the concrete record `"1.2.0 aaaa\n"`. -/
theorem claim_C10_witness :
    ("1.2.0".data ≠ ([] : List Char) ∧
     ∀ ch ∈ "1.2.0".data, goIsSpace ch = false) ∧
    (localVersionChoice (versionRecordText "1.2.0".data "aaaa".data)
        "0.0.0" = String.mk "1.2.0".data ∧
     ParseVersion (localVersionChoice
        (versionRecordText "1.2.0".data "aaaa".data) "0.0.0") =
       ParseVersion (String.mk "1.2.0".data)) :=
  ⟨⟨by decide, by decide⟩,
   claim_C10 "1.2.0".data "aaaa".data "0.0.0" (by decide) (by decide)⟩
